import Mathlib

/-!
Verification of the text2sql pipeline in `src/main.py`.

Strings are modelled as `List Char`.  The sanitizer `clean_sql_query` is
embedded character-exactly from the two `re.sub` passes and the final
`str.strip()`.  The SQLite engine reached through the `sqlite3` connection is
modelled operationally: a store of tables, a micro-SQL language covering the
statement shapes the pipeline distinguishes (plain SELECT, INSERT, a
row-returning WITH statement), prepare-time name resolution, a plan-only
`EXPLAIN QUERY PLAN` path that never touches the store, run-time constraint
failures, and the committed/pending split of the Python `sqlite3` module's
implicit transactions.  `validate_sql`, `execute_query` and
`get_database_schema` are then translated line by line from the source.
-/

set_option maxHeartbeats 1000000
set_option maxRecDepth 10000

/-- The backtick character, written by code point to keep it out of literals
where possible. -/
def bq : Char := Char.ofNat 96

/-- Whitespace recognised by Python `str.strip()` (ASCII portion). -/
def isPySpace (c : Char) : Bool :=
  c == ' ' || c == '\t' || c == '\n' || c == '\r' || c == Char.ofNat 11 || c == Char.ofNat 12

/-- Remove leading whitespace, as the left half of `str.strip()`. -/
def lstrip (s : List Char) : List Char := s.dropWhile isPySpace

/-- Remove trailing whitespace, as the right half of `str.strip()`. -/
def rstrip (s : List Char) : List Char := (s.reverse.dropWhile isPySpace).reverse

/-- Python `str.strip()`: drop leading and trailing whitespace. -/
def pyStrip (s : List Char) : List Char := rstrip (lstrip s)

/-- Embedding of `re.sub(r"```sql", "", raw, flags=re.IGNORECASE)`: scan left
to right; where the six-character pattern matches (backticks verbatim, the
letters case-insensitively), drop it and continue after the match, otherwise
keep one character and move on. -/
def stripSqlFence : List Char → List Char
  | [] => []
  | c :: rest =>
    if c = bq ∧ rest.take 2 = [bq, bq] ∧ ((rest.drop 2).take 3).map Char.toLower = ['s', 'q', 'l'] then
      stripSqlFence (rest.drop 5)
    else
      c :: stripSqlFence rest
termination_by s => s.length
decreasing_by
  all_goals simp
  omega

/-- Embedding of `re.sub(r"```", "", sql_query)`: remove every left-to-right
non-overlapping occurrence of three backticks. -/
def stripTicks : List Char → List Char
  | [] => []
  | c :: rest =>
    if c = bq ∧ rest.take 2 = [bq, bq] then
      stripTicks (rest.drop 2)
    else
      c :: stripTicks rest
termination_by s => s.length
decreasing_by
  all_goals simp
  omega

/-- Embedding of `clean_sql_query` from `src/main.py`: remove the sql-tagged
fence markers, then the generic fence markers, then strip whitespace. -/
def clean_sql_query (raw : List Char) : List Char :=
  pyStrip (stripTicks (stripSqlFence raw))

/-- Characters accepted in a table name by the micro-SQL parser. -/
def isNameChar (c : Char) : Bool := c.isAlphanum || c == '_'

/-- Statements of the micro-SQL language the modelled engine accepts. -/
inductive Stmt where
  | selectAll (table : List Char)
  | insertDefault (table : List Char)
  | withSelectAll (table : List Char)
deriving DecidableEq

/-- One table of the modelled SQLite database: name, columns with declared
types, foreign keys `(from, referenced table, referenced column)`, whether the
table has a NOT NULL column without a default (making `INSERT ... DEFAULT
VALUES` fail at run time), and its rows. -/
structure DbTable where
  name : List Char
  cols : List (List Char × List Char)
  fks : List (List Char × List Char × List Char)
  strictNotNull : Bool
  rows : List (List Nat)
deriving DecidableEq

/-- The database catalog plus data: a list of tables in catalog order. -/
abbrev Store := List DbTable

/-- The `sqlite3` connection: the last committed store and the pending store
seen through the connection (the module's implicit transaction). -/
structure Conn where
  committed : Store
  pending : Store
deriving DecidableEq

/-- A result row as `dict(row)` materializes it: an ordered mapping from
column name to value. -/
abbrev DbRow := List (List Char × Nat)

deriving instance DecidableEq for Except

/-- Catalog lookup by table name: first table whose name matches. -/
def findTable : Store → List Char → Option DbTable
  | [], _ => none
  | tb :: rest, t => if tb.name == t then some tb else findTable rest t

/-- Replace the table named `t` by `tb2`. -/
def updateTable (st : Store) (t : List Char) (tb2 : DbTable) : Store :=
  st.map (fun tb => if tb.name == t then tb2 else tb)

/-- The table a statement refers to. -/
def tableOf : Stmt → List Char
  | Stmt.selectAll t => t
  | Stmt.insertDefault t => t
  | Stmt.withSelectAll t => t

/-- Prepare-time name resolution: the referenced table must exist. -/
def refsExist (s : Stmt) (st : Store) : Bool := (findTable st (tableOf s)).isSome

/-- The row inserted by `INSERT ... DEFAULT VALUES`. -/
def defaultRow (tb : DbTable) : List Nat := List.replicate tb.cols.length 0

/-- Materialize one raw row as an ordered column-name-to-value mapping, as
`dict(row)` does for a `sqlite3.Row`. -/
def matRow (cols : List (List Char × List Char)) (r : List Nat) : DbRow :=
  List.zip (cols.map Prod.fst) r

/-- Engine diagnostic for a missing table. -/
def noTableMsg (t : List Char) : List Char := "no such table: ".toList ++ t

/-- Engine diagnostic for a run-time NOT NULL constraint failure. -/
def notNullMsg (t : List Char) : List Char := "NOT NULL constraint failed: ".toList ++ t

/-- Engine diagnostic for text the parser rejects. -/
def synErrMsg : List Char := "syntax error".toList

/-- The literal prepended by `validate_sql`. -/
def eqp : List Char := "EXPLAIN QUERY PLAN ".toList

/-- Upper-case keyword images used for case-insensitive keyword matching. -/
def selKwU : List Char := "SELECT * FROM ".toList

/-- Upper-case image of the INSERT keyword portion. -/
def insKwU : List Char := "INSERT INTO ".toList

/-- Upper-case image of the WITH statement prelude. -/
def withKwU : List Char := "WITH Q AS (SELECT * FROM ".toList

/-- The micro-SQL parser over already-stripped text.  Keywords match
case-insensitively; the table name is taken verbatim. -/
def parseCore (v : List Char) : Option Stmt :=
  let u := v.map Char.toUpper
  if selKwU.isPrefixOf u then
    let nm := v.drop 14
    if nm ≠ [] ∧ nm.all isNameChar then some (Stmt.selectAll nm) else none
  else if insKwU.isPrefixOf u then
    let rest := v.drop 12
    let nm := rest.takeWhile isNameChar
    let tl := rest.drop nm.length
    if nm ≠ [] ∧ tl.map Char.toUpper = " DEFAULT VALUES".toList then some (Stmt.insertDefault nm) else none
  else if withKwU.isPrefixOf u then
    let rest := v.drop 25
    let nm := rest.takeWhile isNameChar
    let tl := rest.drop nm.length
    if nm ≠ [] ∧ tl.map Char.toUpper = ") SELECT * FROM Q".toList then some (Stmt.withSelectAll nm) else none
  else none

/-- Parse statement text as SQLite does: surrounding whitespace is irrelevant. -/
def parseStmt (s : List Char) : Option Stmt := parseCore (pyStrip s)

/-- Run a prepared statement against a store.  Returns the new store and the
result rows the cursor would yield (`none` for statements that return no
rows), or a run-time engine error. -/
def runStmt (s : Stmt) (st : Store) : Except (List Char) (Store × Option (List DbRow)) :=
  match s with
  | Stmt.selectAll t =>
    match findTable st t with
    | some tb => Except.ok (st, some (tb.rows.map (matRow tb.cols)))
    | none => Except.error (noTableMsg t)
  | Stmt.withSelectAll t =>
    match findTable st t with
    | some tb => Except.ok (st, some (tb.rows.map (matRow tb.cols)))
    | none => Except.error (noTableMsg t)
  | Stmt.insertDefault t =>
    match findTable st t with
    | some tb =>
      if tb.strictNotNull then Except.error (notNullMsg t)
      else Except.ok (updateTable st t { tb with rows := tb.rows ++ [defaultRow tb] }, none)
    | none => Except.error (noTableMsg t)

/-- `cursor.execute(s)` of the modelled engine.  An `EXPLAIN QUERY PLAN`
statement only compiles its inner statement (syntax and name resolution) and
leaves the store untouched, returning plan rows; any other statement is
parsed, name-resolved and run. -/
def cursorExec (s : List Char) (st : Store) : Except (List Char) (Store × Option (List DbRow)) :=
  let t := lstrip s
  if eqp.isPrefixOf t then
    match parseStmt (t.drop 19) with
    | none => Except.error synErrMsg
    | some stmt =>
      if refsExist stmt st then Except.ok (st, some []) else Except.error (noTableMsg (tableOf stmt))
  else
    match parseStmt s with
    | none => Except.error synErrMsg
    | some stmt => runStmt stmt st

/-- Embedding of `validate_sql` from `src/main.py`: execute
`"EXPLAIN QUERY PLAN " + sql_query` and report `(True, "")` or
`(False, str(e))`, returning the connection in its resulting state. -/
def validate_sql (sql : List Char) (c : Conn) : Conn × Bool × List Char :=
  match cursorExec (eqp ++ sql) c.pending with
  | Except.ok (st2, _) => ({ c with pending := st2 }, true, [])
  | Except.error e => (c, false, e)

/-- The classification test of `execute_query`:
`sql_query.strip().upper().startswith("SELECT")`. -/
def startsWithSelect (sql : List Char) : Bool :=
  ("SELECT".toList).isPrefixOf ((pyStrip sql).map Char.toUpper)

/-- Result value of `execute_query`: either a list of row mappings or a
string (success status or error text), exactly as the Python function
returns. -/
inductive QueryResult where
  | resRows (rs : List DbRow)
  | resStr (s : List Char)
deriving DecidableEq

/-- Text prefixed to the diagnostic when validation fails. -/
def invalidMsg : List Char := "Invalid SQL Query: ".toList

/-- Text prefixed to the engine message when execution fails. -/
def execErrMsg : List Char := "SQL execution error: ".toList

/-- The success status of the write path. -/
def successMsg : List Char := "Query executed successfully.".toList

/-- Embedding of `execute_query` from `src/main.py`: validate, stop on
failure; otherwise run the statement, catch engine errors, and either fetch
all rows (SELECT) or commit and report success. -/
def execute_query (sql : List Char) (c : Conn) : Conn × QueryResult :=
  let v := validate_sql sql c
  let c1 := v.1
  if !v.2.1 then (c1, QueryResult.resStr (invalidMsg ++ v.2.2))
  else
    match cursorExec sql c1.pending with
    | Except.error e => (c1, QueryResult.resStr (execErrMsg ++ e))
    | Except.ok (st2, rws) =>
      let c2 : Conn := { c1 with pending := st2 }
      if startsWithSelect sql then (c2, QueryResult.resRows (rws.getD []))
      else ({ c2 with committed := st2 }, QueryResult.resStr successMsg)

/-- The `NOT LIKE 'sqlite_%'` filter of `get_database_schema`: SQLite `LIKE`
is case-insensitive and `_` matches exactly one character. -/
def isSqliteInternal (n : List Char) : Bool :=
  ("sqlite".toList).isPrefixOf (n.map Char.toLower) && decide (7 ≤ n.length)

/-- Tables enumerated by the catalog query of `get_database_schema`. -/
def userTables (st : Store) : Store := st.filter (fun tb => !isSqliteInternal tb.name)

/-- One column line `  - name (type)\n`. -/
def columnLine (col : List Char × List Char) : List Char :=
  "  - ".toList ++ col.1 ++ " (".toList ++ col.2 ++ ")\n".toList

/-- One foreign-key line `  - Foreign Key: from references table(to)\n`. -/
def fkeyLine (fk : List Char × List Char × List Char) : List Char :=
  "  - Foreign Key: ".toList ++ fk.1 ++ " references ".toList ++ fk.2.1 ++ "(".toList ++ fk.2.2 ++ ")\n".toList

/-- The serialized block of one table, as the loop body of
`get_database_schema` appends it. -/
def tableBlock (tb : DbTable) : List Char :=
  "Table: ".toList ++ tb.name ++ "\n".toList ++
    (tb.cols.map columnLine).flatten ++ (tb.fks.map fkeyLine).flatten ++ "\n".toList

/-- Embedding of `get_database_schema` from `src/main.py`. -/
def get_database_schema (st : Store) : List Char :=
  ((userTables st).map tableBlock).flatten

/-! ### Concrete fixtures used by witnesses -/

/-- An empty user table `t(id integer)` with no constraints. -/
def wtT : DbTable := ⟨"t".toList, [("id".toList, "integer".toList)], [], false, []⟩

/-- A table `s(id integer)` whose NOT NULL column without default makes
`INSERT INTO s DEFAULT VALUES` fail at run time though it prepares fine. -/
def wtS : DbTable := ⟨"s".toList, [("id".toList, "integer".toList)], [], true, []⟩

/-- A connection over the two fixture tables, nothing pending. -/
def wConn : Conn := ⟨[wtT, wtS], [wtT, wtS]⟩

/-- Fixture table `A(id integer primary key)`. -/
def fixA : DbTable := ⟨"A".toList, [("id".toList, "integer".toList)], [], false, []⟩

/-- Fixture table `B(id integer primary key, a_id integer references A(id))`. -/
def fixB : DbTable :=
  ⟨"B".toList, [("id".toList, "integer".toList), ("a_id".toList, "integer".toList)],
    [("a_id".toList, "A".toList, "id".toList)], false, []⟩

/-- An internal catalog table, excluded by the `NOT LIKE 'sqlite_%'` filter. -/
def fixSeq : DbTable := ⟨"sqlite_sequence".toList, [("name".toList, "".toList)], [], false, []⟩

/-- The text of a plain read statement over table `t`. -/
def selSql (t : List Char) : List Char := "SELECT * FROM ".toList ++ t

/-- The text of a write statement over table `t`. -/
def insSql (t : List Char) : List Char := "INSERT INTO ".toList ++ t ++ " DEFAULT VALUES".toList

/-- The text of a row-returning statement whose leading keyword is WITH, not
SELECT. -/
def withSql (t : List Char) : List Char :=
  "WITH q AS (SELECT * FROM ".toList ++ t ++ ") SELECT * FROM q".toList

/-! ### Helper lemmas about lists and the sanitizer -/

lemma take_two_eq {l : List Char} {a b : Char} (h : l.take 2 = [a, b]) :
    ∃ r, l = a :: b :: r := by
  match l with
  | [] => simp at h
  | [x] => simp at h
  | x :: y :: r =>
    simp [List.take_succ_cons] at h
    exact ⟨r, by simp [h.1, h.2]⟩

lemma infix_of_tail {xs L : List Char} {a : Char} (h : xs <:+: L) : xs <:+: a :: L := by
  obtain ⟨s, t, hst⟩ := h
  exact ⟨a :: s, t, by simp [← hst]⟩

lemma inf_cons {xs L : List Char} {a : Char} (h : xs <:+: a :: L) :
    xs <+: a :: L ∨ xs <:+: L := by
  obtain ⟨s, t, hst⟩ := h
  cases s with
  | nil => exact Or.inl ⟨t, by simpa using hst⟩
  | cons b s2 =>
    right
    have hst2 : b :: (s2 ++ xs ++ t) = a :: L := by simpa using hst
    injection hst2 with h1 h2
    exact ⟨s2, t, h2⟩

lemma triple_pre_cons {L : List Char} {a : Char} (h : [bq, bq, bq] <+: a :: L) :
    a = bq ∧ L.take 2 = [bq, bq] := by
  obtain ⟨t, ht⟩ := h
  simp only [List.cons_append, List.nil_append, List.cons.injEq] at ht
  obtain ⟨h1, h2⟩ := ht
  subst h2
  exact ⟨h1.symm, by simp [List.take_succ_cons]⟩

lemma stripTicks_head {l : List Char} (h : (stripTicks l).head? = some bq) :
    l.head? = some bq := by
  cases l with
  | nil => simp [stripTicks] at h
  | cons c rest =>
    simp only [stripTicks] at h
    split at h
    · rename_i hc
      simp [hc.1]
    · simp only [List.head?_cons, Option.some.injEq] at h
      simp [h]

lemma stripTicks_take2 {l : List Char} (h : (stripTicks l).take 2 = [bq, bq]) :
    l.take 2 = [bq, bq] := by
  cases l with
  | nil => simp [stripTicks] at h
  | cons c rest =>
    simp only [stripTicks] at h
    split at h
    · rename_i hc
      obtain ⟨r, hr⟩ := take_two_eq hc.2
      simp [hc.1, hr, List.take_succ_cons]
    · rw [List.take_succ_cons, List.cons.injEq] at h
      have h2 : (stripTicks rest).head? = some bq := by
        cases hs : stripTicks rest with
        | nil =>
          rw [hs] at h
          simp at h
        | cons x xs =>
          have := h.2
          rw [hs] at this
          simp only [List.take_succ_cons, List.cons.injEq] at this
          simp [hs, this.1]
      have h3 := stripTicks_head h2
      cases rest with
      | nil => simp at h3
      | cons y ys =>
        simp only [List.head?_cons, Option.some.injEq] at h3
        simp [h.1, h3, List.take_succ_cons]

lemma stripTicks_no_triple (l : List Char) : ¬ [bq, bq, bq] <:+: stripTicks l := by
  induction l using stripTicks.induct with
  | case1 => simp [stripTicks]
  | case2 c rest hc ih =>
    simpa only [stripTicks, if_pos hc] using ih
  | case3 c rest hc ih =>
    simp only [stripTicks, if_neg hc]
    intro habs
    rcases inf_cons habs with hp | hi
    · obtain ⟨h1, h2⟩ := triple_pre_cons hp
      exact hc ⟨h1, stripTicks_take2 h2⟩
    · exact ih hi

lemma stripTicks_eq_self {l : List Char} (h : ¬ [bq, bq, bq] <:+: l) : stripTicks l = l := by
  induction l using stripTicks.induct with
  | case1 => simp [stripTicks]
  | case2 c rest hc ih =>
    exfalso
    obtain ⟨r, hr⟩ := take_two_eq hc.2
    exact h ⟨[], r, by simp [hc.1, hr]⟩
  | case3 c rest hc ih =>
    simp only [stripTicks, if_neg hc]
    rw [ih (fun hi => h (infix_of_tail hi))]

lemma stripSqlFence_eq_self {l : List Char} (h : ¬ [bq, bq, bq] <:+: l) :
    stripSqlFence l = l := by
  induction l using stripSqlFence.induct with
  | case1 => simp [stripSqlFence]
  | case2 c rest hc ih =>
    exfalso
    obtain ⟨r, hr⟩ := take_two_eq hc.2.1
    exact h ⟨[], r, by simp [hc.1, hr]⟩
  | case3 c rest hc ih =>
    simp only [stripSqlFence, if_neg hc]
    rw [ih (fun hi => h (infix_of_tail hi))]

lemma dropWhile_head?_not {p : Char → Bool} :
    ∀ (l : List Char) {a : Char}, (l.dropWhile p).head? = some a → p a = false := by
  intro l
  induction l with
  | nil => intro a h; simp [List.dropWhile] at h
  | cons c rest ih =>
    intro a h
    rw [List.dropWhile_cons] at h
    split at h
    · exact ih h
    · rename_i hc
      simp only [List.head?_cons, Option.some.injEq] at h
      subst h
      exact Bool.eq_false_iff.mpr hc

lemma dropWhile_eq_self_of_head {p : Char → Bool} {l : List Char}
    (h : ∀ a, l.head? = some a → p a = false) : l.dropWhile p = l := by
  cases l with
  | nil => rfl
  | cons c rest =>
    rw [List.dropWhile_cons, if_neg]
    simp [h c rfl]

lemma dropWhile_concat_of_not {p : Char → Bool} (l : List Char) {a : Char}
    (ha : p a = false) : (l ++ [a]).dropWhile p = l.dropWhile p ++ [a] := by
  induction l with
  | nil => simp [List.dropWhile, ha]
  | cons c rest ih =>
    rw [List.cons_append, List.dropWhile_cons, List.dropWhile_cons]
    split
    · exact ih
    · rfl

lemma head?_pyStrip (s : List Char) : (pyStrip s).head? = (lstrip s).head? := by
  cases hl : lstrip s with
  | nil => simp [pyStrip, hl, rstrip]
  | cons a xs =>
    have ha : isPySpace a = false := by
      apply dropWhile_head?_not (p := isPySpace) s
      rw [← lstrip, hl]
      rfl
    rw [pyStrip, hl, rstrip, List.reverse_cons, dropWhile_concat_of_not _ ha,
      List.reverse_append]
    rfl

lemma pyStrip_idem (s : List Char) : pyStrip (pyStrip s) = pyStrip s := by
  have hhd : ∀ a, (pyStrip s).head? = some a → isPySpace a = false := by
    intro a h
    rw [head?_pyStrip] at h
    exact dropWhile_head?_not (p := isPySpace) s h
  have h1 : lstrip (pyStrip s) = pyStrip s := dropWhile_eq_self_of_head hhd
  have h2 : (pyStrip s).reverse = List.dropWhile isPySpace (lstrip s).reverse := by
    rw [pyStrip, rstrip, List.reverse_reverse]
  have h3 : List.dropWhile isPySpace (pyStrip s).reverse = (pyStrip s).reverse := by
    rw [h2]
    exact dropWhile_eq_self_of_head (fun a h => dropWhile_head?_not (p := isPySpace) _ h)
  show rstrip (lstrip (pyStrip s)) = pyStrip s
  rw [h1, rstrip, h3, List.reverse_reverse]

lemma dropWhile_suf {p : Char → Bool} (l : List Char) : ∃ w, w ++ l.dropWhile p = l := by
  induction l with
  | nil => exact ⟨[], rfl⟩
  | cons c rest ih =>
    rw [List.dropWhile_cons]
    split
    · obtain ⟨w, hw⟩ := ih
      exact ⟨c :: w, by simp [hw]⟩
    · exact ⟨[], rfl⟩

lemma pyStrip_isInf (s : List Char) : pyStrip s <:+: s := by
  obtain ⟨w, hw⟩ := dropWhile_suf (p := isPySpace) s
  obtain ⟨w2, hw2⟩ := dropWhile_suf (p := isPySpace) (lstrip s).reverse
  refine ⟨w, w2.reverse, ?_⟩
  have : pyStrip s ++ w2.reverse = lstrip s := by
    rw [pyStrip, rstrip, ← List.reverse_append, hw2, List.reverse_reverse]
  rw [List.append_assoc, this]
  exact hw

lemma pyStrip_eq_self {s : List Char}
    (h1 : ∀ a, s.head? = some a → isPySpace a = false)
    (h2 : ∀ a, s.getLast? = some a → isPySpace a = false) : pyStrip s = s := by
  rw [pyStrip, lstrip, dropWhile_eq_self_of_head h1, rstrip,
    dropWhile_eq_self_of_head (fun a h => h2 a (by rwa [List.head?_reverse] at h)),
    List.reverse_reverse]

lemma clean_no_triple (x : List Char) : ¬ [bq, bq, bq] <:+: clean_sql_query x := by
  intro h
  exact stripTicks_no_triple (stripSqlFence x) (h.trans (pyStrip_isInf _))

/-! ### Claims about the sanitizer -/

/-- C3: the sanitizer is idempotent: for every input string `x`,
`clean_sql_query (clean_sql_query x) = clean_sql_query x`. -/
theorem clean_sql_query_idempotent (x : List Char) :
    clean_sql_query (clean_sql_query x) = clean_sql_query x := by
  have hnt : ¬ [bq, bq, bq] <:+: clean_sql_query x := clean_no_triple x
  rw [clean_sql_query, stripSqlFence_eq_self hnt, stripTicks_eq_self hnt]
  exact pyStrip_idem (stripTicks (stripSqlFence x))

/-- C5: for every input string, the sanitized output contains no occurrence of
the three-backtick fence marker as a contiguous substring (so in particular no
sql-tagged opening fence, which contains the generic marker, and no marker
recombined from leftover characters survives). -/
theorem clean_sql_query_no_fence_marker (x : List Char) :
    decide ([bq, bq, bq] <:+: clean_sql_query x) = false :=
  decide_eq_false (clean_no_triple x)

/-- C4, counterexample: the single-space string contains no fence marker, yet
`clean_sql_query` does not return it unaltered — it strips the whitespace and
returns the empty string. -/
theorem clean_sql_query_unaltered_cex :
    decide ([bq, bq, bq] <:+: [' ']) = false ∧
    clean_sql_query [' '] = [] ∧
    decide (([' '] : List Char) = []) = false := by
  refine ⟨by decide, ?_, by decide⟩
  simp +decide [clean_sql_query, stripSqlFence, stripTicks, pyStrip, lstrip, rstrip]

/-- C4, amended: on any input containing no fence marker the sanitizer
performs no marker removal at all; it returns the input unaltered except for
stripping leading and trailing whitespace, `clean_sql_query x = pyStrip x`. -/
theorem clean_sql_query_fence_free_strip (x : List Char)
    (h : decide ([bq, bq, bq] <:+: x) = false) :
    clean_sql_query x = pyStrip x := by
  have hn : ¬ [bq, bq, bq] <:+: x := of_decide_eq_false h
  rw [clean_sql_query, stripSqlFence_eq_self hn, stripTicks_eq_self hn]

/-- Witness for the amended C4 at a concrete fence-free input. -/
theorem clean_sql_query_fence_free_strip_witness :
    decide ([bq, bq, bq] <:+: ("SELECT * FROM tracks;".toList)) = false ∧
    clean_sql_query ("SELECT * FROM tracks;".toList) = pyStrip ("SELECT * FROM tracks;".toList) :=
  ⟨by decide, clean_sql_query_fence_free_strip _ (by decide)⟩

/-! ### Helper lemmas about the modelled engine -/

lemma isPre_append : ∀ (a b : List Char), a.isPrefixOf (a ++ b) = true := by
  intro a b
  induction a with
  | nil => simp
  | cons c cs ih => simp [List.isPrefixOf_cons₂, ih]

lemma isPre_head {a : Char} {p l : List Char} (h : (a :: p).isPrefixOf l = true) :
    l.head? = some a := by
  cases l with
  | nil => simp at h
  | cons b bs =>
    rw [List.isPrefixOf_cons₂] at h
    simp only [Bool.and_eq_true, beq_iff_eq] at h
    simp [h.1]

lemma cursorExec_eqp (s : List Char) (st : Store) :
    cursorExec (eqp ++ s) st =
      match parseStmt s with
      | none => Except.error synErrMsg
      | some stmt =>
        if refsExist stmt st then Except.ok (st, some [])
        else Except.error (noTableMsg (tableOf stmt)) := by
  have h1 : lstrip (eqp ++ s) = eqp ++ s := by
    apply dropWhile_eq_self_of_head
    intro a h
    have he : eqp ++ s = 'E' :: ("XPLAIN QUERY PLAN ".toList ++ s) := rfl
    rw [he] at h
    simp only [List.head?_cons, Option.some.injEq] at h
    subst h
    decide
  have h3 : (eqp ++ s).drop 19 = s := by
    have h19 : (19 : Nat) = eqp.length := rfl
    rw [h19, List.drop_left]
  simp only [cursorExec, h1, isPre_append eqp s, if_true, h3, parseStmt]

lemma validate_sql_spec (sql : List Char) (c : Conn) :
    validate_sql sql c =
      match parseStmt sql with
      | none => (c, false, synErrMsg)
      | some stmt =>
        if refsExist stmt c.pending then (c, true, ([] : List Char))
        else (c, false, noTableMsg (tableOf stmt)) := by
  rw [validate_sql, cursorExec_eqp]
  cases hp : parseStmt sql with
  | none => rfl
  | some stmt =>
    by_cases hr : refsExist stmt c.pending
    · simp [hr]
    · simp [hr]

lemma validate_sql_fst (sql : List Char) (c : Conn) : (validate_sql sql c).1 = c := by
  rw [validate_sql_spec]
  cases parseStmt sql with
  | none => rfl
  | some stmt =>
    by_cases hr : refsExist stmt c.pending <;> simp [hr]

lemma validate_sql_none {sql : List Char} (c : Conn) (hp : parseStmt sql = none) :
    validate_sql sql c = (c, false, synErrMsg) := by
  rw [validate_sql_spec, hp]

lemma validate_sql_some {sql : List Char} (c : Conn) {stmt : Stmt}
    (hp : parseStmt sql = some stmt) :
    validate_sql sql c =
      if refsExist stmt c.pending then (c, true, ([] : List Char))
      else (c, false, noTableMsg (tableOf stmt)) := by
  rw [validate_sql_spec, hp]

lemma parseCore_head {v : List Char} {s : Stmt} (h : parseCore v = some s) :
    ∃ a, v.head? = some a ∧
      (Char.toUpper a = 'S' ∨ Char.toUpper a = 'I' ∨ Char.toUpper a = 'W') := by
  have hu : ∀ b, (v.map Char.toUpper).head? = some b → ∃ a, v.head? = some a ∧ Char.toUpper a = b := by
    intro b hb
    cases v with
    | nil => simp at hb
    | cons x xs =>
      simp only [List.map_cons, List.head?_cons, Option.some.injEq] at hb
      exact ⟨x, rfl, hb⟩
  rw [parseCore] at h
  split at h
  · rename_i hc
    obtain ⟨a, ha, hup⟩ := hu 'S' (isPre_head (p := "ELECT * FROM ".toList) hc)
    exact ⟨a, ha, Or.inl hup⟩
  · split at h
    · rename_i hc
      obtain ⟨a, ha, hup⟩ := hu 'I' (isPre_head (p := "NSERT INTO ".toList) hc)
      exact ⟨a, ha, Or.inr (Or.inl hup)⟩
    · split at h
      · rename_i hc
        obtain ⟨a, ha, hup⟩ := hu 'W' (isPre_head (p := "ITH Q AS (SELECT * FROM ".toList) hc)
        exact ⟨a, ha, Or.inr (Or.inr hup)⟩
      · exact absurd h (by simp)

lemma cursorExec_nonexplain {sql : List Char} {s : Stmt} (hp : parseStmt sql = some s)
    (st : Store) : cursorExec sql st = runStmt s st := by
  obtain ⟨a, ha, hup⟩ := parseCore_head (v := pyStrip sql) (by rwa [parseStmt] at hp)
  have hls : (lstrip sql).head? = some a := by rw [← head?_pyStrip]; exact ha
  have hE : eqp.isPrefixOf (lstrip sql) = false := by
    cases hEb : eqp.isPrefixOf (lstrip sql) with
    | false => rfl
    | true =>
      exfalso
      have : (lstrip sql).head? = some 'E' :=
        isPre_head (p := "XPLAIN QUERY PLAN ".toList) hEb
      rw [hls] at this
      simp only [Option.some.injEq] at this
      subst this
      rcases hup with h | h | h <;> exact absurd h (by decide)
  simp only [cursorExec, hE, Bool.false_eq_true, if_false, hp]

lemma execute_query_invalid {sql : List Char} {c : Conn}
    (h : (validate_sql sql c).2.1 = false) :
    execute_query sql c = (c, QueryResult.resStr (invalidMsg ++ (validate_sql sql c).2.2)) := by
  have hf := validate_sql_fst sql c
  rcases hv : validate_sql sql c with ⟨c1, b, m⟩
  rw [hv] at hf h
  simp only at hf h
  subst hf
  subst h
  simp [execute_query, hv]

lemma execute_query_valid_run {sql : List Char} {c : Conn}
    (h : (validate_sql sql c).2.1 = true) :
    execute_query sql c =
      (match cursorExec sql c.pending with
       | Except.error e => (c, QueryResult.resStr (execErrMsg ++ e))
       | Except.ok (st2, rws) =>
         if startsWithSelect sql then ({ c with pending := st2 }, QueryResult.resRows (rws.getD []))
         else (⟨st2, st2⟩, QueryResult.resStr successMsg)) := by
  have hf := validate_sql_fst sql c
  rcases hv : validate_sql sql c with ⟨c1, b, m⟩
  rw [hv] at hf h
  simp only at hf h
  subst hf
  subst h
  simp only [execute_query, hv, Bool.not_true, Bool.false_eq_true, if_false]

lemma refsExist_some {s : Stmt} {st : Store} (h : refsExist s st = true) :
    ∃ tb, findTable st (tableOf s) = some tb := by
  rw [refsExist] at h
  exact Option.isSome_iff_exists.mp h

lemma parseCore_select_shape {v : List Char} {s : Stmt} (h : parseCore v = some s)
    (hs : ("SELECT".toList).isPrefixOf (v.map Char.toUpper) = true) :
    ∃ t, s = Stmt.selectAll t := by
  have hhd : (v.map Char.toUpper).head? = some 'S' := isPre_head (p := "ELECT".toList) hs
  simp only [parseCore] at h
  split at h
  · split at h
    · exact ⟨v.drop 14, by injection h with h2; exact h2.symm⟩
    · simp at h
  · split at h
    · rename_i hI
      have hIh : (v.map Char.toUpper).head? = some 'I' :=
        isPre_head (p := "NSERT INTO ".toList) hI
      rw [hhd] at hIh
      simp at hIh
    · split at h
      · rename_i hW
        have hWh : (v.map Char.toUpper).head? = some 'W' :=
          isPre_head (p := "ITH Q AS (SELECT * FROM ".toList) hW
        rw [hhd] at hWh
        simp at hWh
      · simp at h

/-! ### Claims about validation and execution -/

/-- C1: for every candidate SQL string, valid or invalid, `validate_sql`
produces zero observable change to database state: the connection it returns
is the one it was given, so every table keeps its row count and its schema
(name, columns, foreign keys). -/
theorem validate_sql_preserves_database_state (sql : List Char) (c : Conn) :
    (validate_sql sql c).1 = c ∧
    ((validate_sql sql c).1.pending.map fun tb => tb.rows.length) =
      (c.pending.map fun tb => tb.rows.length) ∧
    ((validate_sql sql c).1.pending.map fun tb => (tb.name, tb.cols, tb.fks)) =
      (c.pending.map fun tb => (tb.name, tb.cols, tb.fks)) := by
  refine ⟨validate_sql_fst sql c, ?_, ?_⟩ <;> rw [validate_sql_fst]

/-- C2: `execute_query` is total by construction (it always returns one of
the result variants of `QueryResult`); when validation fails it returns the
`Invalid SQL Query: ` diagnostic with the database state unchanged and no
execution attempted, and when the engine errors during execution it returns
the `SQL execution error: ` message. -/
theorem execute_query_total_error_contract (sql : List Char) (c : Conn) :
    ((validate_sql sql c).2.1 = false →
      execute_query sql c = (c, QueryResult.resStr (invalidMsg ++ (validate_sql sql c).2.2))) ∧
    (∀ e, (validate_sql sql c).2.1 = true → cursorExec sql c.pending = Except.error e →
      execute_query sql c = (c, QueryResult.resStr (execErrMsg ++ e))) := by
  constructor
  · exact fun h => execute_query_invalid h
  · intro e hv hE
    rw [execute_query_valid_run hv, hE]

/-- Witness for C2: a syntactically invalid statement takes the validation
branch, and an INSERT violating a NOT NULL constraint passes validation but
takes the caught-engine-error branch. -/
theorem execute_query_total_error_contract_witness :
    ((validate_sql ("BOGUS".toList) wConn).2.1 = false ∧
      execute_query ("BOGUS".toList) wConn =
        (wConn, QueryResult.resStr (invalidMsg ++ (validate_sql ("BOGUS".toList) wConn).2.2))) ∧
    ((validate_sql ("INSERT INTO s DEFAULT VALUES".toList) wConn).2.1 = true ∧
      cursorExec ("INSERT INTO s DEFAULT VALUES".toList) wConn.pending =
        Except.error (notNullMsg ("s".toList)) ∧
      execute_query ("INSERT INTO s DEFAULT VALUES".toList) wConn =
        (wConn, QueryResult.resStr (execErrMsg ++ notNullMsg ("s".toList)))) :=
  ⟨⟨by decide, (execute_query_total_error_contract ("BOGUS".toList) wConn).1 (by decide)⟩,
   ⟨by decide, by decide,
    (execute_query_total_error_contract ("INSERT INTO s DEFAULT VALUES".toList) wConn).2
      (notNullMsg ("s".toList)) (by decide) (by decide)⟩⟩

/-- C6: on a validated statement classified as a read (trimmed text starts
with SELECT, case-insensitively), `execute_query` takes the read path: the
connection is unchanged, the result is `resRows` with every row materialized
as an ordered column-name-to-value mapping in declaration order, and a
statement matching zero rows yields the empty sequence, not an error and not
an absent value. -/
theorem execute_query_read_path_rows (sql : List Char) (c : Conn)
    (hval : (validate_sql sql c).2.1 = true)
    (hsel : startsWithSelect sql = true) :
    ∃ t tb, parseStmt sql = some (Stmt.selectAll t) ∧ findTable c.pending t = some tb ∧
      execute_query sql c = (c, QueryResult.resRows (tb.rows.map (matRow tb.cols))) ∧
      (tb.rows = [] → execute_query sql c = (c, QueryResult.resRows [])) := by
  rcases hp : parseStmt sql with _ | stmt
  · rw [validate_sql_none c hp] at hval
    simp at hval
  · have hspec := validate_sql_some c hp
    by_cases hr : refsExist stmt c.pending = true
    · obtain ⟨t, hts⟩ := parseCore_select_shape (v := pyStrip sql)
        (by rwa [parseStmt] at hp) (by rwa [startsWithSelect] at hsel)
      subst hts
      obtain ⟨tb, htb⟩ := refsExist_some hr
      simp only [tableOf] at htb
      have hrun : runStmt (Stmt.selectAll t) c.pending =
          Except.ok (c.pending, some (tb.rows.map (matRow tb.cols))) := by
        simp only [runStmt, htb]
      have hexec := execute_query_valid_run hval
      rw [cursorExec_nonexplain hp, hrun] at hexec
      simp only [hsel, if_true, Option.getD_some] at hexec
      have hc2 : ({ c with pending := c.pending } : Conn) = c := rfl
      rw [hc2] at hexec
      refine ⟨t, tb, rfl, htb, hexec, ?_⟩
      intro h0
      rw [h0] at hexec
      simpa using hexec
    · rw [if_neg hr] at hspec
      rw [hspec] at hval
      simp at hval

/-- Witness for C6: selecting from the empty fixture table returns the empty
row sequence. -/
theorem execute_query_read_path_rows_witness :
    (validate_sql ("SELECT * FROM t".toList) wConn).2.1 = true ∧
    startsWithSelect ("SELECT * FROM t".toList) = true ∧
    (∃ t tb, parseStmt ("SELECT * FROM t".toList) = some (Stmt.selectAll t) ∧
      findTable wConn.pending t = some tb ∧
      execute_query ("SELECT * FROM t".toList) wConn =
        (wConn, QueryResult.resRows (tb.rows.map (matRow tb.cols))) ∧
      (tb.rows = [] →
        execute_query ("SELECT * FROM t".toList) wConn = (wConn, QueryResult.resRows []))) :=
  ⟨by decide, by decide,
   execute_query_read_path_rows ("SELECT * FROM t".toList) wConn (by decide) (by decide)⟩

/-- C10: on the empty string and on every whitespace-only string (such as the
result of sanitizing a bare fence block), validation fails with a non-empty
diagnostic and `execute_query` returns the invalid-query error without
executing anything, leaving the connection unchanged. -/
theorem validate_sql_blank_input_invalid (sql : List Char) (c : Conn)
    (h : sql.all isPySpace = true) :
    (validate_sql sql c).2.1 = false ∧
    0 < (validate_sql sql c).2.2.length ∧
    execute_query sql c = (c, QueryResult.resStr (invalidMsg ++ (validate_sql sql c).2.2)) := by
  have hl : lstrip sql = [] := by
    rw [lstrip, List.dropWhile_eq_nil_iff]
    intro x hx
    exact List.all_eq_true.mp h x hx
  have hp : parseStmt sql = none := by
    rw [parseStmt, pyStrip, hl]
    rfl
  have hv := validate_sql_none c hp
  refine ⟨by rw [hv], by rw [hv]; show 0 < synErrMsg.length; decide, ?_⟩
  exact execute_query_invalid (by rw [hv])

/-- Witness for C10 at the sanitized bare fence block, which is empty. -/
theorem validate_sql_blank_input_invalid_witness :
    ((clean_sql_query ("```sql\n```".toList)).all isPySpace = true) ∧
    ((validate_sql (clean_sql_query ("```sql\n```".toList)) wConn).2.1 = false ∧
      0 < (validate_sql (clean_sql_query ("```sql\n```".toList)) wConn).2.2.length ∧
      execute_query (clean_sql_query ("```sql\n```".toList)) wConn =
        (wConn, QueryResult.resStr
          (invalidMsg ++ (validate_sql (clean_sql_query ("```sql\n```".toList)) wConn).2.2))) := by
  have hc : clean_sql_query ("```sql\n```".toList) = [] := by
    simp +decide [clean_sql_query, stripSqlFence, stripTicks, pyStrip, lstrip, rstrip]
  exact ⟨by rw [hc]; rfl,
    validate_sql_blank_input_invalid (clean_sql_query ("```sql\n```".toList)) wConn (by rw [hc]; rfl)⟩

/-! ### Helper lemmas for the constructed write and read statements -/

lemma getLast?_append_ne {x y : List Char} (hy : y ≠ []) :
    (x ++ y).getLast? = y.getLast? := by
  rw [List.getLast?_append]
  cases hg : y.getLast? with
  | none => exact absurd (List.getLast?_eq_none_iff.mp hg) hy
  | some a => rfl

lemma isNameChar_not_space {ch : Char} (h : isNameChar ch = true) : isPySpace ch = false := by
  cases hsp : isPySpace ch with
  | false => rfl
  | true =>
    exfalso
    simp only [isPySpace, Bool.or_eq_true, beq_iff_eq] at hsp
    rcases hsp with ((((h1 | h1) | h1) | h1) | h1) | h1 <;>
      (subst h1; exact absurd h (by decide))

lemma isPre_false_of_head {a b : Char} {p l : List Char} (hl : l.head? = some b)
    (hab : a ≠ b) : (a :: p).isPrefixOf l = false := by
  cases hPre : (a :: p).isPrefixOf l with
  | false => rfl
  | true =>
    exfalso
    have hh := isPre_head hPre
    rw [hl] at hh
    injection hh with hh
    exact hab hh.symm

lemma findTable_name {st : Store} {t : List Char} {tb : DbTable}
    (h : findTable st t = some tb) : (tb.name == t) = true := by
  induction st with
  | nil => simp [findTable] at h
  | cons x xs ih =>
    rw [findTable] at h
    split at h
    · rename_i hx
      injection h with h
      subst h
      exact hx
    · exact ih h

lemma findTable_update {st : Store} {t : List Char} {tb tb2 : DbTable}
    (h : findTable st t = some tb) (hn : tb2.name = tb.name) :
    findTable (updateTable st t tb2) t = some tb2 := by
  have htbn := findTable_name h
  induction st with
  | nil => simp [findTable] at h
  | cons x xs ih =>
    rw [findTable] at h
    rw [updateTable, List.map_cons, findTable]
    split at h
    · rename_i hx
      rw [if_pos hx, if_pos (by rw [hn]; exact htbn)]
    · rename_i hx
      rw [if_neg hx, if_neg hx]
      exact ih h

lemma pyStrip_selSql {t : List Char} (h1 : t ≠ []) (h2 : t.all isNameChar = true) :
    pyStrip (selSql t) = selSql t := by
  apply pyStrip_eq_self
  · intro a ha
    have hh : (selSql t).head? = some 'S' := rfl
    rw [hh] at ha
    injection ha with ha
    subst ha
    decide
  · intro a ha
    rw [selSql, getLast?_append_ne h1] at ha
    exact isNameChar_not_space (List.all_eq_true.mp h2 a (List.mem_of_getLast?_eq_some ha))

lemma pyStrip_insSql (t : List Char) : pyStrip (insSql t) = insSql t := by
  apply pyStrip_eq_self
  · intro a ha
    have hh : (insSql t).head? = some 'I' := rfl
    rw [hh] at ha
    injection ha with ha
    subst ha
    decide
  · intro a ha
    rw [insSql, getLast?_append_ne (by decide)] at ha
    have : (" DEFAULT VALUES".toList).getLast? = some 'S' := rfl
    rw [this] at ha
    injection ha with ha
    subst ha
    decide

lemma pyStrip_withSql (t : List Char) : pyStrip (withSql t) = withSql t := by
  apply pyStrip_eq_self
  · intro a ha
    have hh : (withSql t).head? = some 'W' := rfl
    rw [hh] at ha
    injection ha with ha
    subst ha
    decide
  · intro a ha
    rw [withSql, getLast?_append_ne (by decide)] at ha
    have : (") SELECT * FROM q".toList).getLast? = some 'q' := rfl
    rw [this] at ha
    injection ha with ha
    subst ha
    decide

lemma map_toUpper_selSql (t : List Char) :
    (selSql t).map Char.toUpper = selKwU ++ t.map Char.toUpper := by
  rw [selSql, List.map_append]
  congr 1

lemma map_toUpper_insSql (t : List Char) :
    (insSql t).map Char.toUpper =
      insKwU ++ (t ++ " DEFAULT VALUES".toList).map Char.toUpper := by
  rw [insSql, List.append_assoc, List.map_append]
  congr 1

lemma map_toUpper_withSql (t : List Char) :
    (withSql t).map Char.toUpper =
      withKwU ++ (t ++ ") SELECT * FROM q".toList).map Char.toUpper := by
  rw [withSql, List.append_assoc, List.map_append]
  congr 1

lemma parseStmt_selSql {t : List Char} (h1 : t ≠ []) (h2 : t.all isNameChar = true) :
    parseStmt (selSql t) = some (Stmt.selectAll t) := by
  rw [parseStmt, pyStrip_selSql h1 h2]
  have hpre : selKwU.isPrefixOf ((selSql t).map Char.toUpper) = true := by
    rw [map_toUpper_selSql]
    exact isPre_append _ _
  have hd : (selSql t).drop 14 = t := by
    rw [selSql]
    have h14 : (14 : Nat) = ("SELECT * FROM ".toList).length := rfl
    rw [h14, List.drop_left]
  simp [parseCore, hpre, hd, h1, h2]

lemma parseStmt_insSql {t : List Char} (h1 : t ≠ []) (h2 : t.all isNameChar = true) :
    parseStmt (insSql t) = some (Stmt.insertDefault t) := by
  rw [parseStmt, pyStrip_insSql]
  have hS : selKwU.isPrefixOf ((insSql t).map Char.toUpper) = false := by
    apply isPre_false_of_head (b := 'I')
    · rw [map_toUpper_insSql]
      rfl
    · decide
  have hpre : insKwU.isPrefixOf ((insSql t).map Char.toUpper) = true := by
    rw [map_toUpper_insSql]
    exact isPre_append _ _
  have hd : (insSql t).drop 12 = t ++ " DEFAULT VALUES".toList := by
    rw [insSql, List.append_assoc]
    have h12 : (12 : Nat) = ("INSERT INTO ".toList).length := rfl
    rw [h12, List.drop_left]
  have htw : (t ++ " DEFAULT VALUES".toList).takeWhile isNameChar = t := by
    rw [List.takeWhile_append_of_pos (fun a ha => List.all_eq_true.mp h2 a ha)]
    have hz : (" DEFAULT VALUES".toList).takeWhile isNameChar = [] := rfl
    rw [hz, List.append_nil]
  have hdrop2 : (t ++ " DEFAULT VALUES".toList).drop t.length = " DEFAULT VALUES".toList :=
    List.drop_left _ _
  have hmdv : (" DEFAULT VALUES".toList).map Char.toUpper = " DEFAULT VALUES".toList := by
    decide
  simp only [parseCore, hS, Bool.false_eq_true, if_false, hpre, eq_self_iff_true, if_true]
  rw [hd, htw, hdrop2, hmdv]
  simp [h1]

lemma parseStmt_withSql {t : List Char} (h1 : t ≠ []) (h2 : t.all isNameChar = true) :
    parseStmt (withSql t) = some (Stmt.withSelectAll t) := by
  rw [parseStmt, pyStrip_withSql]
  have hS : selKwU.isPrefixOf ((withSql t).map Char.toUpper) = false := by
    apply isPre_false_of_head (b := 'W')
    · rw [map_toUpper_withSql]
      rfl
    · decide
  have hI : insKwU.isPrefixOf ((withSql t).map Char.toUpper) = false := by
    apply isPre_false_of_head (b := 'W')
    · rw [map_toUpper_withSql]
      rfl
    · decide
  have hpre : withKwU.isPrefixOf ((withSql t).map Char.toUpper) = true := by
    rw [map_toUpper_withSql]
    exact isPre_append _ _
  have hd : (withSql t).drop 25 = t ++ ") SELECT * FROM q".toList := by
    rw [withSql, List.append_assoc]
    have h25 : (25 : Nat) = ("WITH q AS (SELECT * FROM ".toList).length := rfl
    rw [h25, List.drop_left]
  have htw : (t ++ ") SELECT * FROM q".toList).takeWhile isNameChar = t := by
    rw [List.takeWhile_append_of_pos (fun a ha => List.all_eq_true.mp h2 a ha)]
    have hz : (") SELECT * FROM q".toList).takeWhile isNameChar = [] := rfl
    rw [hz, List.append_nil]
  have hdrop2 : (t ++ ") SELECT * FROM q".toList).drop t.length = ") SELECT * FROM q".toList :=
    List.drop_left _ _
  have hmtl : (") SELECT * FROM q".toList).map Char.toUpper = ") SELECT * FROM Q".toList := by
    decide
  simp only [parseCore, hS, hI, Bool.false_eq_true, if_false, hpre, eq_self_iff_true, if_true]
  rw [hd, htw, hdrop2, hmtl]
  simp [h1]

lemma startsWithSelect_selSql {t : List Char} (h1 : t ≠ []) (h2 : t.all isNameChar = true) :
    startsWithSelect (selSql t) = true := by
  rw [startsWithSelect, pyStrip_selSql h1 h2, map_toUpper_selSql]
  have hsplit : selKwU ++ t.map Char.toUpper =
      "SELECT".toList ++ (" * FROM ".toList ++ t.map Char.toUpper) := by
    rw [← List.append_assoc]
    rfl
  rw [hsplit]
  exact isPre_append _ _

lemma startsWithSelect_insSql (t : List Char) : startsWithSelect (insSql t) = false := by
  rw [startsWithSelect, pyStrip_insSql]
  apply isPre_false_of_head (b := 'I')
  · rw [map_toUpper_insSql]
    rfl
  · decide

lemma startsWithSelect_withSql (t : List Char) : startsWithSelect (withSql t) = false := by
  rw [startsWithSelect, pyStrip_withSql]
  apply isPre_false_of_head (b := 'W')
  · rw [map_toUpper_withSql]
    rfl
  · decide

/-- C7: a validated write statement is run and committed, `execute_query`
returns the success status, and a subsequent read statement over the same
connection observes the committed change (one more row than before, the new
row included in the returned mappings). -/
theorem execute_query_write_path_commits (c : Conn) (t : List Char) (tb : DbTable)
    (h1 : t.isEmpty = false) (h2 : t.all isNameChar = true)
    (htb : findTable c.pending t = some tb) (hnn : tb.strictNotNull = false) :
    execute_query (insSql t) c =
      (⟨updateTable c.pending t { tb with rows := tb.rows ++ [defaultRow tb] },
        updateTable c.pending t { tb with rows := tb.rows ++ [defaultRow tb] }⟩,
       QueryResult.resStr successMsg) ∧
    execute_query (selSql t)
        ⟨updateTable c.pending t { tb with rows := tb.rows ++ [defaultRow tb] },
         updateTable c.pending t { tb with rows := tb.rows ++ [defaultRow tb] }⟩ =
      (⟨updateTable c.pending t { tb with rows := tb.rows ++ [defaultRow tb] },
        updateTable c.pending t { tb with rows := tb.rows ++ [defaultRow tb] }⟩,
       QueryResult.resRows ((tb.rows ++ [defaultRow tb]).map (matRow tb.cols))) ∧
    ((tb.rows ++ [defaultRow tb]).map (matRow tb.cols)).length = tb.rows.length + 1 := by
  have h1n : t ≠ [] := by
    intro he
    rw [he] at h1
    simp at h1
  have hpi := parseStmt_insSql h1n h2
  have href : refsExist (Stmt.insertDefault t) c.pending = true := by
    simp [refsExist, tableOf, htb]
  have hval : (validate_sql (insSql t) c).2.1 = true := by
    rw [validate_sql_some c hpi, if_pos href]
  have hrun : runStmt (Stmt.insertDefault t) c.pending =
      Except.ok (updateTable c.pending t { tb with rows := tb.rows ++ [defaultRow tb] }, none) := by
    simp [runStmt, htb, hnn]
  have hexec := execute_query_valid_run hval
  rw [cursorExec_nonexplain hpi, hrun] at hexec
  simp only [startsWithSelect_insSql t, Bool.false_eq_true, if_false] at hexec
  refine ⟨hexec, ?_, by simp⟩
  have hps := parseStmt_selSql h1n h2
  have hft2 : findTable (updateTable c.pending t { tb with rows := tb.rows ++ [defaultRow tb] }) t =
      some { tb with rows := tb.rows ++ [defaultRow tb] } :=
    findTable_update htb rfl
  have hval2 : (validate_sql (selSql t)
      (⟨updateTable c.pending t { tb with rows := tb.rows ++ [defaultRow tb] },
        updateTable c.pending t { tb with rows := tb.rows ++ [defaultRow tb] }⟩ : Conn)).2.1 = true := by
    rw [validate_sql_some _ hps]
    rw [if_pos (by simp [refsExist, tableOf, hft2])]
  have hexec2 := execute_query_valid_run hval2
  have hcur2 : cursorExec (selSql t)
      ((⟨updateTable c.pending t { tb with rows := tb.rows ++ [defaultRow tb] },
         updateTable c.pending t { tb with rows := tb.rows ++ [defaultRow tb] }⟩ : Conn)).pending =
      Except.ok (updateTable c.pending t { tb with rows := tb.rows ++ [defaultRow tb] },
        some ((tb.rows ++ [defaultRow tb]).map (matRow tb.cols))) := by
    show cursorExec (selSql t) (updateTable c.pending t { tb with rows := tb.rows ++ [defaultRow tb] }) = _
    rw [cursorExec_nonexplain hps]
    simp [runStmt, hft2]
  rw [hcur2] at hexec2
  simp only [startsWithSelect_selSql h1n h2, if_true, Option.getD_some] at hexec2
  exact hexec2

/-- Witness for C7: inserting into the empty fixture table `t` commits one
default row, and selecting afterwards returns exactly that row. -/
theorem execute_query_write_path_commits_witness :
    ("t".toList.isEmpty = false) ∧ ("t".toList.all isNameChar = true) ∧
    (findTable wConn.pending ("t".toList) = some wtT) ∧ (wtT.strictNotNull = false) ∧
    (execute_query (insSql ("t".toList)) wConn =
      (⟨updateTable wConn.pending ("t".toList) { wtT with rows := wtT.rows ++ [defaultRow wtT] },
        updateTable wConn.pending ("t".toList) { wtT with rows := wtT.rows ++ [defaultRow wtT] }⟩,
       QueryResult.resStr successMsg) ∧
     execute_query (selSql ("t".toList))
        ⟨updateTable wConn.pending ("t".toList) { wtT with rows := wtT.rows ++ [defaultRow wtT] },
         updateTable wConn.pending ("t".toList) { wtT with rows := wtT.rows ++ [defaultRow wtT] }⟩ =
      (⟨updateTable wConn.pending ("t".toList) { wtT with rows := wtT.rows ++ [defaultRow wtT] },
        updateTable wConn.pending ("t".toList) { wtT with rows := wtT.rows ++ [defaultRow wtT] }⟩,
       QueryResult.resRows ((wtT.rows ++ [defaultRow wtT]).map (matRow wtT.cols))) ∧
     ((wtT.rows ++ [defaultRow wtT]).map (matRow wtT.cols)).length = wtT.rows.length + 1) :=
  ⟨by decide, by decide, by decide, by decide,
   execute_query_write_path_commits wConn ("t".toList) wtT (by decide) (by decide)
     (by decide) (by decide)⟩

/-- C9: read classification is exactly the SELECT leading-keyword test: a
valid row-returning statement beginning with WITH is classified as a write —
the engine produces its rows, but `execute_query` discards them, commits, and
returns the success status instead of the rows. -/
theorem execute_query_nonselect_write_path (c : Conn) (t : List Char) (tb : DbTable)
    (h1 : t.isEmpty = false) (h2 : t.all isNameChar = true)
    (htb : findTable c.pending t = some tb) :
    startsWithSelect (withSql t) = false ∧
    (validate_sql (withSql t) c).2.1 = true ∧
    cursorExec (withSql t) c.pending =
      Except.ok (c.pending, some (tb.rows.map (matRow tb.cols))) ∧
    execute_query (withSql t) c = (⟨c.pending, c.pending⟩, QueryResult.resStr successMsg) := by
  have h1n : t ≠ [] := by
    intro he
    rw [he] at h1
    simp at h1
  have hpw := parseStmt_withSql h1n h2
  have href : refsExist (Stmt.withSelectAll t) c.pending = true := by
    simp [refsExist, tableOf, htb]
  have hval : (validate_sql (withSql t) c).2.1 = true := by
    rw [validate_sql_some c hpw, if_pos href]
  have hcur : cursorExec (withSql t) c.pending =
      Except.ok (c.pending, some (tb.rows.map (matRow tb.cols))) := by
    rw [cursorExec_nonexplain hpw]
    simp [runStmt, htb]
  have hexec := execute_query_valid_run hval
  rw [hcur] at hexec
  simp only [startsWithSelect_withSql t, Bool.false_eq_true, if_false] at hexec
  exact ⟨startsWithSelect_withSql t, hval, hcur, hexec⟩

/-- Witness for C9: the WITH statement over the fixture table is executed on
the write path and its rows are discarded. -/
theorem execute_query_nonselect_write_path_witness :
    ("t".toList.isEmpty = false) ∧ ("t".toList.all isNameChar = true) ∧
    (findTable wConn.pending ("t".toList) = some wtT) ∧
    (startsWithSelect (withSql ("t".toList)) = false ∧
     (validate_sql (withSql ("t".toList)) wConn).2.1 = true ∧
     cursorExec (withSql ("t".toList)) wConn.pending =
       Except.ok (wConn.pending, some (wtT.rows.map (matRow wtT.cols))) ∧
     execute_query (withSql ("t".toList)) wConn =
       (⟨wConn.pending, wConn.pending⟩, QueryResult.resStr successMsg)) :=
  ⟨by decide, by decide, by decide,
   execute_query_nonselect_write_path wConn ("t".toList) wtT (by decide) (by decide) (by decide)⟩

/-- C8: `get_database_schema` serializes the catalog deterministically in the
stated line format; over the fixture with tables `A(id integer primary key)`
and `B(id integer primary key, a_id integer references A(id))` it yields
exactly the expected text, internal `sqlite_*` catalog tables contribute
nothing, and the output contains both table headers, the column line for
`a_id` under `B`, and the foreign-key line `a_id references A(id)`. -/
theorem get_database_schema_fixture_format :
    get_database_schema [fixA, fixB] =
      ("Table: A\n  - id (integer)\n\nTable: B\n  - id (integer)\n  - a_id (integer)\n  - Foreign Key: a_id references A(id)\n\n".toList) ∧
    get_database_schema [fixA, fixB, fixSeq] = get_database_schema [fixA, fixB] ∧
    ("Table: A\n".toList) <:+: get_database_schema [fixA, fixB] ∧
    ("Table: B\n".toList) <:+: get_database_schema [fixA, fixB] ∧
    ("  - a_id (integer)\n".toList) <:+: get_database_schema [fixA, fixB] ∧
    ("  - Foreign Key: a_id references A(id)\n".toList) <:+: get_database_schema [fixA, fixB] :=
  ⟨by decide, by decide, by decide, by decide, by decide, by decide⟩
